import Mathlib

/-
Verification development for the TaskFlow API core.

Shallow embedding of the TypeScript sources:
  - `TasksService` (src/unnamed/part_000): create, findAll, findOne, update,
    remove, bulkUpdateStatus, bulkDelete, updateStatus, plus the private
    helpers `invalidateTaskCache` and `getCacheKey`.
  - `TaskProcessorService` (src/src/queues/task-processor/task-processor.service.ts):
    process, handleStatusUpdate, handleOverdueTasks.
  - `RateLimitGuard` (src/src/common/guards/rate-limit.guard.ts): handleRateLimit.

The async orchestration is sequential, so it is embedded as pure functions
threading an explicit `World` state.  Thrown exceptions become `Except.error`;
the cache manager (which the service awaits without any try/catch) is modelled
as a backend that either answers or fails, and the BullMQ queue (whose `add`
calls the service wraps in try/catch that only logs) is modelled as an
operation returning a success flag.  An event log in the state records the
externally visible actions (transaction begin/commit, store writes, cache
deletions, enqueue attempts) so that ordering properties can be stated.
-/

namespace TaskFlow

/-- Task status enum (src: enums/task-status.enum, values used throughout
part_000 and the stats query: PENDING, IN_PROGRESS, COMPLETED). -/
inductive TaskStatus where
  | PENDING
  | IN_PROGRESS
  | COMPLETED
deriving DecidableEq, Repr

/-- Task priority enum (src: enums/task-priority.enum, values LOW, MEDIUM, HIGH
per the spec data model and the stats query's HIGH filter). -/
inductive TaskPriority where
  | LOW
  | MEDIUM
  | HIGH
deriving DecidableEq, Repr

def statusStr : TaskStatus → String
  | .PENDING => "PENDING"
  | .IN_PROGRESS => "IN_PROGRESS"
  | .COMPLETED => "COMPLETED"

def priorityStr : TaskPriority → String
  | .LOW => "LOW"
  | .MEDIUM => "MEDIUM"
  | .HIGH => "HIGH"

/-- `Object.values(TaskStatus).includes(s)` as a partial inverse of `statusStr`. -/
def parseStatus : String → Option TaskStatus
  | "PENDING" => some TaskStatus.PENDING
  | "IN_PROGRESS" => some TaskStatus.IN_PROGRESS
  | "COMPLETED" => some TaskStatus.COMPLETED
  | _ => none

/-- Task entity (entities/task.entity; fields per the spec data model and the
columns referenced by part_000).  Timestamps are epoch milliseconds. -/
structure Task where
  id : String
  title : String
  description : Option String := none
  status : TaskStatus := TaskStatus.PENDING
  priority : TaskPriority := TaskPriority.MEDIUM
  dueDate : Option Nat := none
  createdAt : Nat := 0
deriving DecidableEq, Repr

/-- CreateTaskDto: fields the client may supply on create. -/
structure CreateTaskDto where
  title : String
  description : Option String := none
  status : Option TaskStatus := none
  priority : Option TaskPriority := none
  dueDate : Option Nat := none
deriving DecidableEq, Repr

/-- UpdateTaskDto: every field optional; `none` models an absent (undefined)
property, which TypeORM's `merge` skips. -/
structure UpdateTaskDto where
  title : Option String := none
  description : Option String := none
  status : Option TaskStatus := none
  priority : Option TaskPriority := none
  dueDate : Option Nat := none
deriving DecidableEq, Repr

/-- TaskFilterDto (src/src/modules/tasks/dto/task-filter.dto.ts).  All fields
optional; sortBy/sortOrder kept as raw strings as they arrive at runtime. -/
structure TaskFilterDto where
  status : Option TaskStatus := none
  priority : Option TaskPriority := none
  q : Option String := none
  page : Option Nat := none
  limit : Option Nat := none
  sortBy : Option String := none
  sortOrder : Option String := none
deriving DecidableEq, Repr

/-- `meta` object of the paginated response built in findAll. -/
structure PageMeta where
  total : Nat
  page : Nat
  limit : Nat
  totalPages : Nat
deriving DecidableEq, Repr

/-- PaginatedResponse shape returned by findAll: `{ data, meta }`. -/
structure PaginatedResponse where
  data : List Task
  meta : PageMeta
deriving DecidableEq, Repr

/-- A value stored in the cache: either a single task (`task:{id}` keys) or a
paginated response (`tasks:{filter}` keys). -/
inductive CacheVal where
  | taskVal (t : Task)
  | pageVal (p : PaginatedResponse)
deriving DecidableEq, Repr

/-- A job accepted by the `task-processing` queue. -/
structure Job where
  kind : String
  taskId : String
  status : Option TaskStatus := none
deriving DecidableEq, Repr

/-- Externally visible actions, recorded in order of occurrence. -/
inductive Event where
  | txBegin
  | txCommit
  | storeWrite (id : String)
  | storeDelete (id : String)
  | storeBulkUpd
  | storeBulkDel
  | enqueueAttempt (kind : String) (taskId : String)
  | cacheDel (key : String)
deriving DecidableEq, Repr

/-- The external cache (Redis behind cache-manager): its entries plus a flag
saying whether the connection is currently failing (timeout/connection error,
in which case every operation on it rejects). -/
structure CacheBackend where
  entries : List (String × CacheVal)
  failing : Bool
deriving DecidableEq, Repr

/-- Combined state of the three subsystems plus the event log. -/
structure World where
  store : List Task
  cache : CacheBackend
  queue : List Job
  queueFailing : Bool
  events : List Event
  nextId : Nat
  clock : Nat
deriving DecidableEq, Repr

/-- Errors that propagate out of a service call (thrown exceptions). -/
inductive Err where
  | notFound (msg : String)
  | cacheErr
deriving DecidableEq, Repr

/- ## Association-list helpers (cache entries, rate-limit map) -/

def alistFind {β : Type} (k : String) : List (String × β) → Option β
  | [] => none
  | (k2, v) :: rest => if k2 = k then some v else alistFind k rest

def alistSet {β : Type} (k : String) (v : β) : List (String × β) → List (String × β)
  | [] => [(k, v)]
  | (k2, v2) :: rest => if k2 = k then (k, v) :: rest else (k2, v2) :: alistSet k v rest

def alistDel {β : Type} (k : String) (l : List (String × β)) : List (String × β) :=
  l.filter (fun e => decide (e.1 ≠ k))

theorem alistFind_alistSet_self {β : Type} (k : String) (v : β) (l : List (String × β)) :
    alistFind k (alistSet k v l) = some v := by
  induction l with
  | nil => simp [alistSet, alistFind]
  | cons e rest ih =>
    by_cases h : e.1 = k
    · simp [alistSet, alistFind, h]
    · simpa [alistSet, alistFind, h] using ih

/- ## Primitive operations on the world -/

def logEvent (e : Event) (w : World) : World :=
  { w with events := w.events ++ [e] }

/-- `cacheManager.get(key)` — no try/catch anywhere in the services, so a
failing backend rejects (propagates as `Err.cacheErr`). -/
def cacheManagerGet (key : String) (w : World) : Except Err (Option CacheVal × World) :=
  if w.cache.failing then Except.error Err.cacheErr
  else Except.ok (alistFind key w.cache.entries, w)

/-- `cacheManager.set(key, value)` — rejects when the backend is failing. -/
def cacheManagerSet (key : String) (v : CacheVal) (w : World) : Except Err (Unit × World) :=
  if w.cache.failing then Except.error Err.cacheErr
  else Except.ok ((), { w with cache := { w.cache with entries := alistSet key v w.cache.entries } })

/-- `cacheManager.del(key)` — rejects when the backend is failing; records a
cacheDel event on success. -/
def cacheManagerDel (key : String) (w : World) : Except Err (Unit × World) :=
  if w.cache.failing then Except.error Err.cacheErr
  else Except.ok ((),
    { w with
      cache := { w.cache with entries := alistDel key w.cache.entries },
      events := w.events ++ [Event.cacheDel key] })

/-- `taskQueue.add(kind, {taskId, status}, opts)`.  Every call site in the
service wraps this in try/catch that only logs the failure, so it is embedded
as returning a success flag; the attempt itself is always recorded. -/
def queueAdd (kind : String) (taskId : String) (st : Option TaskStatus) (w : World) :
    Bool × World :=
  let w1 := logEvent (Event.enqueueAttempt kind taskId) w
  if w.queueFailing then (false, w1)
  else (true, { w1 with queue := w1.queue ++ [{ kind := kind, taskId := taskId, status := st }] })

def lookupTask (id : String) : List Task → Option Task
  | [] => none
  | t :: rest => if t.id = id then some t else lookupTask id rest

def upsertTask (t : Task) (store : List Task) : List Task :=
  if store.any (fun x => x.id == t.id) then
    store.map (fun x => if x.id = t.id then t else x)
  else store ++ [t]

/-- `repo.save(task)` — upsert by id; never fails. -/
def repoSave (t : Task) (w : World) : Task × World :=
  (t, { w with store := upsertTask t w.store, events := w.events ++ [Event.storeWrite t.id] })

/-- `tasksRepository.delete(id)` — returns the affected row count. -/
def repoDeleteById (id : String) (w : World) : Nat × World :=
  (w.store.countP (fun t => t.id == id),
   { w with
     store := w.store.filter (fun t => !(t.id == id)),
     events := w.events ++ [Event.storeDelete id] })

/-- The bulk `UPDATE ... SET status WHERE id IN (:...ids)` statement; affected
is the number of matched rows (Postgres semantics). -/
def storeBulkUpdateStatus (ids : List String) (s : TaskStatus) (w : World) : Nat × World :=
  (w.store.countP (fun t => ids.contains t.id),
   { w with
     store := w.store.map (fun t => if ids.contains t.id then { t with status := s } else t),
     events := w.events ++ [Event.storeBulkUpd] })

/-- The bulk `DELETE FROM task WHERE id IN (:...ids)` statement. -/
def storeBulkDelete (ids : List String) (w : World) : Nat × World :=
  (w.store.countP (fun t => ids.contains t.id),
   { w with
     store := w.store.filter (fun t => !(ids.contains t.id)),
     events := w.events ++ [Event.storeBulkDel] })

/- ## Cache-key derivation (TasksService.getCacheKey)

`getCacheKey(filter)` is `tasks:${JSON.stringify(filter)}`.  At runtime the
filter is a JavaScript object, and `JSON.stringify` serializes its own
enumerable string-keyed properties in insertion order.  The runtime object is
therefore embedded as an ordered association list of field name to
already-JSON-encoded value text. -/

/-- A JavaScript object as `JSON.stringify` sees it: fields in insertion
order, each value given as its JSON text. -/
def FilterObj : Type := List (String × String)

def jsonQuote (s : String) : String := "\"" ++ s ++ "\""

def jsonFields : List (String × String) → String
  | [] => ""
  | [(k, v)] => jsonQuote k ++ ":" ++ v
  | (k, v) :: rest => jsonQuote k ++ ":" ++ v ++ "," ++ jsonFields rest

/-- `JSON.stringify` on a flat object with the given insertion order. -/
def jsonStringify (o : FilterObj) : String :=
  "\x7b" ++ jsonFields o ++ "\x7d"

/-- TasksService.getCacheKey (part_000 lines 43-45). -/
def getCacheKey (filter : FilterObj) : String :=
  "tasks:" ++ jsonStringify filter

/-- Two filter objects carry identical values for every field present in
either of them (the claims' notion of "identical field values"). -/
def fieldsAgree (o1 o2 : FilterObj) : Bool :=
  o1.all (fun e => alistFind e.1 o2 == some e.2) &&
  o2.all (fun e => alistFind e.1 o1 == some e.2)

/-- The runtime object for a `TaskFilterDto`, with fields in declaration
order (one particular insertion order); absent optionals are `undefined` and
are omitted by `JSON.stringify`. -/
def dtoToObj (f : TaskFilterDto) : FilterObj :=
  (match f.status with
   | some s => [("status", jsonQuote (statusStr s))]
   | none => []) ++
  (match f.priority with
   | some p => [("priority", jsonQuote (priorityStr p))]
   | none => []) ++
  (match f.q with
   | some q => [("q", jsonQuote q)]
   | none => []) ++
  (match f.page with
   | some n => [("page", toString n)]
   | none => []) ++
  (match f.limit with
   | some n => [("limit", toString n)]
   | none => []) ++
  (match f.sortBy with
   | some s => [("sortBy", jsonQuote s)]
   | none => []) ++
  (match f.sortOrder with
   | some s => [("sortOrder", jsonQuote s)]
   | none => [])

/- ## Filtering and sorting (the query built in TasksService.findAll) -/

def charsLeadWith : List Char → List Char → Bool
  | [], _ => true
  | _ :: _, [] => false
  | a :: as, b :: bs => a == b && charsLeadWith as bs

def charsContain (pat : List Char) : List Char → Bool
  | [] => charsLeadWith pat []
  | b :: bs => charsLeadWith pat (b :: bs) || charsContain pat bs

/-- `ILIKE '%q%'`: case-insensitive substring match (wildcard characters
inside `q` itself are not modelled; no claim depends on them). -/
def ilikeContains (hay pat : String) : Bool :=
  charsContain pat.toLower.data hay.toLower.data

/-- The WHERE clauses added in findAll (part_000 lines 85-88).  A `some ""`
search text is falsy in TypeScript, so it adds no clause. -/
def matchesFilter (f : TaskFilterDto) (t : Task) : Bool :=
  (match f.status with
   | some s => t.status == s
   | none => true) &&
  (match f.priority with
   | some p => t.priority == p
   | none => true) &&
  (match f.q with
   | some q =>
     q == "" ||
     (ilikeContains t.title q ||
      (match t.description with
       | some d => ilikeContains d q
       | none => false))
   | none => true)

/-- Allow-listed sort fields (part_000 line 90). -/
def allowedSortFields : List String := ["title", "createdAt", "dueDate", "priority", "status"]

/-- The column passed to `orderBy` (part_000 lines 90-94): the requested field
when allow-listed, otherwise `task.createdAt`. -/
def orderField (f : TaskFilterDto) : String :=
  if allowedSortFields.contains (f.sortBy.getD "") then "task." ++ f.sortBy.getD ""
  else "task.createdAt"

def optNatLe : Option Nat → Option Nat → Bool
  | none, _ => false
  | some _, none => true
  | some a, some b => decide (a ≤ b)

/-- Ascending comparison for each order column.  Enum columns are stored as
text, so they compare by their string values; NULL dueDates sort last in
ascending order (Postgres default). -/
def columnLe (field : String) (a b : Task) : Bool :=
  match field with
  | "task.title" => decide (a.title ≤ b.title)
  | "task.dueDate" => optNatLe a.dueDate b.dueDate
  | "task.priority" => decide (priorityStr a.priority ≤ priorityStr b.priority)
  | "task.status" => decide (statusStr a.status ≤ statusStr b.status)
  | _ => decide (a.createdAt ≤ b.createdAt)

/-- Stable insertion into a sorted list (model of the store's ORDER BY). -/
def insertLe {α : Type} (le : α → α → Bool) (a : α) : List α → List α
  | [] => [a]
  | b :: bs => if le a b then a :: b :: bs else b :: insertLe le a bs

def insSort {α : Type} (le : α → α → Bool) : List α → List α
  | [] => []
  | a :: as => insertLe le a (insSort le as)

/-- The comparison used by findAll's ORDER BY: the selected column,
ascending only when `sortOrder === 'ASC'` (part_000 line 96). -/
def findAllLe (f : TaskFilterDto) (a b : Task) : Bool :=
  if f.sortOrder == some "ASC" then columnLe (orderField f) a b
  else columnLe (orderField f) b a

/- ## TasksService -/

/-- TasksService.invalidateTaskCache (part_000 lines 35-41): deletes the
`tasks:all` and `tasks:stats` bucket keys. -/
def invalidateTaskCache (w : World) : Except Err (Unit × World) :=
  match cacheManagerDel "tasks:all" w with
  | Except.error e => Except.error e
  | Except.ok (_, w1) =>
    match cacheManagerDel "tasks:stats" w1 with
    | Except.error e => Except.error e
    | Except.ok (_, w2) => Except.ok ((), w2)

/-- `repo.create(createTaskDto)`: a new entity with a fresh id; createdAt is
set by the store at save time. -/
def repoCreate (dto : CreateTaskDto) (id : String) (now : Nat) : Task :=
  { id := id,
    title := dto.title,
    description := dto.description,
    status := dto.status.getD TaskStatus.PENDING,
    priority := dto.priority.getD TaskPriority.MEDIUM,
    dueDate := dto.dueDate,
    createdAt := now }

/-- TasksService.create (part_000 lines 48-69).  The transaction callback
saves the task and attempts the enqueue (try/catch that only logs); the
transaction commits when the callback returns, and only then does
invalidateTaskCache run. -/
def create (dto : CreateTaskDto) (w : World) : Except Err (Task × World) :=
  let w1 := logEvent Event.txBegin w
  let task := repoCreate dto ("task-" ++ toString w1.nextId) w1.clock
  let sw := repoSave task { w1 with nextId := w1.nextId + 1 }
  let qw := queueAdd "task-status-update" sw.1.id (some sw.1.status) sw.2
  let w4 := logEvent Event.txCommit qw.2
  match invalidateTaskCache w4 with
  | Except.error e => Except.error e
  | Except.ok (_, w5) => Except.ok (sw.1, w5)

/-- TasksService.findAll (part_000 lines 71-116): cache-aside read of a
filtered, sorted, paginated task list. -/
def findAll (f : TaskFilterDto) (w : World) : Except Err (PaginatedResponse × World) :=
  let page := f.page.getD 1
  let limit := f.limit.getD 10
  let skip := (page - 1) * limit
  let cacheKey := getCacheKey (dtoToObj f)
  match cacheManagerGet cacheKey w with
  | Except.error e => Except.error e
  | Except.ok (cached, w1) =>
    match cached with
    | some (CacheVal.pageVal p) => Except.ok (p, w1)
    | _ =>
      let filtered := w1.store.filter (matchesFilter f)
      let sorted := insSort (findAllLe f) filtered
      let items := (sorted.drop skip).take limit
      let total := filtered.length
      let resp : PaginatedResponse :=
        { data := items,
          meta := { total := total, page := page, limit := limit,
                    totalPages := (total + limit - 1) / limit } }
      match cacheManagerSet cacheKey (CacheVal.pageVal resp) w1 with
      | Except.error e => Except.error e
      | Except.ok (_, w2) => Except.ok (resp, w2)

/-- TasksService.findOne (part_000 lines 148-166). -/
def findOne (id : String) (w : World) : Except Err (Task × World) :=
  match cacheManagerGet ("task:" ++ id) w with
  | Except.error e => Except.error e
  | Except.ok (cached, w1) =>
    match cached with
    | some (CacheVal.taskVal t) => Except.ok (t, w1)
    | _ =>
      match lookupTask id w1.store with
      | none => Except.error (Err.notFound ("Task with ID " ++ id ++ " not found"))
      | some task =>
        match cacheManagerSet ("task:" ++ id) (CacheVal.taskVal task) w1 with
        | Except.error e => Except.error e
        | Except.ok (_, w2) => Except.ok (task, w2)

/-- TypeORM `repo.merge(task, updateTaskDto)`: defined dto properties
overwrite the entity; undefined ones are skipped. -/
def mergeTask (t : Task) (d : UpdateTaskDto) : Task :=
  { t with
    title := d.title.getD t.title,
    description := match d.description with
      | some x => some x
      | none => t.description,
    status := d.status.getD t.status,
    priority := d.priority.getD t.priority,
    dueDate := match d.dueDate with
      | some x => some x
      | none => t.dueDate }

/-- TasksService.update (part_000 lines 168-196).  The entire body — load,
merge, save, conditional enqueue, cache invalidation — runs inside the
`dataSource.transaction` callback; the commit happens when the callback
returns. -/
def update (id : String) (dto : UpdateTaskDto) (w : World) : Except Err (Task × World) :=
  let w1 := logEvent Event.txBegin w
  match lookupTask id w1.store with
  | none => Except.error (Err.notFound ("Task with ID " ++ id ++ " not found"))
  | some task =>
    let originalStatus := task.status
    let sw := repoSave (mergeTask task dto) w1
    let w3 :=
      if originalStatus ≠ sw.1.status then
        (queueAdd "task-status-update" sw.1.id (some sw.1.status) sw.2).2
      else sw.2
    match invalidateTaskCache w3 with
    | Except.error e => Except.error e
    | Except.ok (_, w4) =>
      match cacheManagerDel ("task:" ++ id) w4 with
      | Except.error e => Except.error e
      | Except.ok (_, w5) => Except.ok (sw.1, logEvent Event.txCommit w5)

/-- TasksService.remove (part_000 lines 199-209). -/
def remove (id : String) (w : World) : Except Err (Nat × World) :=
  let dw := repoDeleteById id w
  if dw.1 = 0 then Except.error (Err.notFound ("Task with ID " ++ id ++ " not found"))
  else
    match invalidateTaskCache dw.2 with
    | Except.error e => Except.error e
    | Except.ok (_, w1) =>
      match cacheManagerDel ("task:" ++ id) w1 with
      | Except.error e => Except.error e
      | Except.ok (_, w2) => Except.ok (dw.1, w2)

/-- The per-id loop of bulkUpdateStatus (part_000 lines 222-233): delete the
single-entity key, then attempt the enqueue (try/catch that only logs). -/
def bulkLoop (ids : List String) (s : TaskStatus) (w : World) : Except Err (Unit × World) :=
  match ids with
  | [] => Except.ok ((), w)
  | id :: rest =>
    match cacheManagerDel ("task:" ++ id) w with
    | Except.error e => Except.error e
    | Except.ok (_, w1) =>
      let qw := queueAdd "task-status-update" id (some s) w1
      bulkLoop rest s qw.2

/-- TasksService.bulkUpdateStatus (part_000 lines 212-237). -/
def bulkUpdateStatus (ids : List String) (s : TaskStatus) (w : World) :
    Except Err (Nat × World) :=
  if ids.isEmpty then Except.ok (0, w)
  else
    let uw := storeBulkUpdateStatus ids s w
    match bulkLoop ids s uw.2 with
    | Except.error e => Except.error e
    | Except.ok (_, w1) =>
      match invalidateTaskCache w1 with
      | Except.error e => Except.error e
      | Except.ok (_, w2) => Except.ok (uw.1, w2)

/-- The per-id cache-deletion loop of bulkDelete (part_000 line 250). -/
def bulkDelLoop (ids : List String) (w : World) : Except Err (Unit × World) :=
  match ids with
  | [] => Except.ok ((), w)
  | id :: rest =>
    match cacheManagerDel ("task:" ++ id) w with
    | Except.error e => Except.error e
    | Except.ok (_, w1) => bulkDelLoop rest w1

/-- TasksService.bulkDelete (part_000 lines 240-254). -/
def bulkDelete (ids : List String) (w : World) : Except Err (Nat × World) :=
  if ids.isEmpty then Except.ok (0, w)
  else
    let dw := storeBulkDelete ids w
    match bulkDelLoop ids dw.2 with
    | Except.error e => Except.error e
    | Except.ok (_, w1) =>
      match invalidateTaskCache w1 with
      | Except.error e => Except.error e
      | Except.ok (_, w2) => Except.ok (dw.1, w2)

/-- TasksService.updateStatus (part_000 lines 261-273). -/
def updateStatus (id : String) (s : TaskStatus) (w : World) : Except Err (Task × World) :=
  match lookupTask id w.store with
  | none => Except.error (Err.notFound ("Task with ID " ++ id ++ " not found"))
  | some task =>
    let sw := repoSave { task with status := s } w
    match invalidateTaskCache sw.2 with
    | Except.error e => Except.error e
    | Except.ok (_, w1) =>
      match cacheManagerDel ("task:" ++ id) w1 with
      | Except.error e => Except.error e
      | Except.ok (_, w2) => Except.ok (sw.1, w2)

/- ## TaskProcessorService (src/src/queues/task-processor/task-processor.service.ts) -/

/-- The dynamic `job.data` payload as the consumer reads it; `none` models
an absent property. -/
structure JobPayload where
  taskId : Option String := none
  status : Option String := none
deriving DecidableEq, Repr

/-- A job as delivered to the worker: BullMQ `job.name` plus its data. -/
structure JobIn where
  name : String
  data : JobPayload
deriving DecidableEq, Repr

/-- The structured result a handler returns (success plus the optional
fields the handlers attach). -/
structure JobResult where
  success : Bool
  error : Option String := none
  taskId : Option String := none
  newStatus : Option String := none
deriving DecidableEq, Repr

/-- JavaScript truthiness of an optional string: `undefined` and `''` are
falsy. -/
def falsyStr : Option String → Bool
  | none => true
  | some s => s == ""

/-- TaskProcessorService.handleStatusUpdate (lines 37-57).  Missing or
falsy taskId/status and unrecognized status values return a structured
failure; a failing updateStatus call is logged and rethrown. -/
def handleStatusUpdate (job : JobIn) (w : World) : Except Err (JobResult × World) :=
  if falsyStr job.data.taskId || falsyStr job.data.status then
    Except.ok ({ success := false, error := some "Missing required data" }, w)
  else
    match parseStatus (job.data.status.getD "") with
    | none => Except.ok ({ success := false, error := some "Invalid status value" }, w)
    | some st =>
      match updateStatus (job.data.taskId.getD "") st w with
      | Except.error e => Except.error e
      | Except.ok (task, w1) =>
        Except.ok ({ success := true, taskId := some task.id,
                     newStatus := some (statusStr task.status) }, w1)

/-- TaskProcessorService.handleOverdueTasks (lines 58-73).  A falsy taskId
returns a structured failure; any error from findOne — including NotFound —
is logged and rethrown. -/
def handleOverdueTasks (job : JobIn) (w : World) : Except Err (JobResult × World) :=
  if falsyStr job.data.taskId then
    Except.ok ({ success := false, error := some "Missing taskId" }, w)
  else
    match findOne (job.data.taskId.getD "") w with
    | Except.error e => Except.error e
    | Except.ok (_, w1) =>
      Except.ok ({ success := true, taskId := job.data.taskId }, w1)

/-- TaskProcessorService.process (lines 17-36): route by job name; unknown
names return a structured failure; the surrounding try/catch logs and
rethrows, leaving thrown errors thrown. -/
def process (job : JobIn) (w : World) : Except Err (JobResult × World) :=
  if job.name == "task-status-update" then handleStatusUpdate job w
  else if job.name == "overdue-tasks-notification" then handleOverdueTasks job w
  else Except.ok ({ success := false, error := some "Unknown job type" }, w)

/- ## RateLimitGuard (src/src/common/guards/rate-limit.guard.ts) -/

/-- An entry of the module-level `rateLimitStore` map. -/
structure RateRecord where
  count : Nat
  expiresAt : Nat
deriving DecidableEq, Repr

/-- Outcome of a guard check: `canActivate` returns true, or the guard
throws a 429 HttpException carrying `retryAfter` seconds. -/
inductive RateOutcome where
  | allowed
  | rejected (retryAfter : Nat)
deriving DecidableEq, Repr

/-- RateLimitGuard.handleRateLimit (lines 31-56).  Times are epoch
milliseconds.  In the reject branch `record.expiresAt ≥ now` holds, so the
Nat subtraction agrees with the source's integer arithmetic, and
`(d + 999) / 1000` is exactly `Math.ceil(d / 1000)`. -/
def handleRateLimit (st : List (String × RateRecord)) (ip : String)
    (limit windowMs now : Nat) : RateOutcome × List (String × RateRecord) :=
  match alistFind ip st with
  | none => (RateOutcome.allowed, alistSet ip { count := 1, expiresAt := now + windowMs } st)
  | some record =>
    if record.expiresAt < now then
      (RateOutcome.allowed, alistSet ip { count := 1, expiresAt := now + windowMs } st)
    else if limit ≤ record.count then
      (RateOutcome.rejected ((record.expiresAt - now + 999) / 1000), st)
    else
      (RateOutcome.allowed,
       alistSet ip { count := record.count + 1, expiresAt := record.expiresAt } st)

/- ## Event-log scanners used by the ordering claims -/

def isCommit : Event → Bool
  | Event.txCommit => true
  | _ => false

def isCacheDel : Event → Bool
  | Event.cacheDel _ => true
  | _ => false

def isEnqueueAttempt : Event → Bool
  | Event.enqueueAttempt _ _ => true
  | _ => false

/-- Some cache deletion occurs strictly before some transaction commit. -/
def cacheDelBeforeCommit : List Event → Bool
  | [] => false
  | e :: rest => (isCacheDel e && rest.any isCommit) || cacheDelBeforeCommit rest

/-- Some enqueue attempt occurs strictly before some transaction commit. -/
def enqueueBeforeCommit : List Event → Bool
  | [] => false
  | e :: rest => (isEnqueueAttempt e && rest.any isCommit) || enqueueBeforeCommit rest

/-- Number of enqueue attempts recorded. -/
def enqAttempts (es : List Event) : Nat := es.countP isEnqueueAttempt

/-- The event log of a successful run. -/
def eventsOfRun {α : Type} : Except Err (α × World) → Option (List Event)
  | Except.ok (_, w) => some w.events
  | Except.error _ => none

/-- The data list of a successful findAll run. -/
def pageDataOf : Except Err (PaginatedResponse × World) → Option (List Task)
  | Except.ok (p, _) => some p.data
  | Except.error _ => none

/-- Adjacent-pairs check: createdAt is non-increasing along the list. -/
def descByCreatedAt : List Task → Bool
  | a :: b :: rest => decide (b.createdAt ≤ a.createdAt) && descByCreatedAt (b :: rest)
  | _ => true

/- ## Concrete inputs used by the counterexample / failing-input theorems -/

def exTask1 : Task := { id := "t1", title := "a", createdAt := 10 }

def exTask2 : Task := { id := "t2", title := "b", createdAt := 20 }

/-- A healthy world: two pending tasks, empty cache, working backends. -/
def exW : World :=
  { store := [exTask1, exTask2], cache := { entries := [], failing := false },
    queue := [], queueFailing := false, events := [], nextId := 0, clock := 100 }

def exUpdDto : UpdateTaskDto := { status := some TaskStatus.IN_PROGRESS }

def exCrDto : CreateTaskDto := { title := "new" }

/-- The same world with the cache backend down. -/
def exWCacheDown : World := { exW with cache := { entries := [], failing := true } }

/- ## Claim theorems -/

/-- C1: the claim says cache invalidation runs only after the owning store
transaction has committed, never inside the transaction body.  The code of
TasksService.update runs `invalidateTaskCache` and the single-entity key
deletion inside the `dataSource.transaction` callback: on a successful
update of an existing task, the event log shows all three cache deletions
strictly before the transaction commit. -/
theorem update_invalidates_cache_inside_transaction :
    eventsOfRun (update "t1" exUpdDto exW) =
      some [Event.txBegin, Event.storeWrite "t1",
            Event.enqueueAttempt "task-status-update" "t1",
            Event.cacheDel "tasks:all", Event.cacheDel "tasks:stats",
            Event.cacheDel "task:t1", Event.txCommit] ∧
    (eventsOfRun (update "t1" exUpdDto exW)).map cacheDelBeforeCommit = some true := by
  constructor
  · rfl
  · rfl

/-- C2: the claim says the enqueue to the task-processing queue is attempted
only after the owning transaction has committed.  TasksService.create calls
`taskQueue.add` inside the `dataSource.transaction` callback: on a successful
create, the enqueue attempt appears strictly before the commit in the event
log.  (The second half of the claim does hold: the enqueue failure is
swallowed, so create still succeeds when the queue is down.) -/
theorem create_enqueues_inside_transaction :
    eventsOfRun (create exCrDto exW) =
      some [Event.txBegin, Event.storeWrite "task-0",
            Event.enqueueAttempt "task-status-update" "task-0",
            Event.txCommit, Event.cacheDel "tasks:all", Event.cacheDel "tasks:stats"] ∧
    (eventsOfRun (create exCrDto exW)).map enqueueBeforeCommit = some true ∧
    (create exCrDto { exW with queueFailing := true }).isOk = true := by
  refine ⟨rfl, rfl, rfl⟩

/-- C3: the claim says two filter objects with identical field values but
different field insertion order map to the same cache key.  getCacheKey is
`tasks:` + `JSON.stringify(filter)`, and `JSON.stringify` serializes fields in
insertion order: the objects `(status, priority)` and `(priority, status)`
agree on every field yet produce different keys. -/
theorem cache_key_depends_on_field_order :
    fieldsAgree [("status", jsonQuote "PENDING"), ("priority", jsonQuote "HIGH")]
                [("priority", jsonQuote "HIGH"), ("status", jsonQuote "PENDING")] = true ∧
    getCacheKey [("status", jsonQuote "PENDING"), ("priority", jsonQuote "HIGH")] ≠
    getCacheKey [("priority", jsonQuote "HIGH"), ("status", jsonQuote "PENDING")] := by
  constructor
  · rfl
  · decide

/-- C4: the claim says a cache failure degrades to a miss/no-op and never
propagates: findAll should still return the store's result and a mutation
should still succeed.  Neither CacheService nor TasksService wraps any cache
call in try/catch, so with the cache backend down findAll rejects instead of
answering from the (non-empty) store, and create rejects after its
transaction has already committed. -/
theorem cache_failure_propagates_to_caller :
    findAll {} exWCacheDown = Except.error Err.cacheErr ∧
    create exCrDto exWCacheDown = Except.error Err.cacheErr ∧
    exWCacheDown.store ≠ [] := by
  refine ⟨rfl, rfl, by decide⟩

/-- C5: the claim says an overdue-tasks-notification job whose task no longer
exists is reported as a terminal, non-retryable failure.  The handler's catch
block logs and RETHROWS the NotFound error from findOne, and the spec's own
retry rule says a thrown error is a transient failure eligible for retry:
processing such a job propagates the NotFound exception instead of returning
a structured non-retryable result. -/
theorem overdue_job_missing_task_throws :
    process { name := "overdue-tasks-notification", data := { taskId := some "ghost" } }
        { exW with store := [] } =
      Except.error (Err.notFound "Task with ID ghost not found") := by
  rfl

/-- C8 counterexample: the claim says a non-allow-listed sort field makes
findAll sort by createdAt DESCENDING regardless of the other filter
parameters.  With sortBy = "id" (not allow-listed) and sortOrder = "ASC" the
code still applies the requested direction to the fallback column: the result
is in ascending createdAt order, which is not descending. -/
theorem findAll_fallback_keeps_requested_direction :
    (pageDataOf (findAll { sortBy := some "id", sortOrder := some "ASC" } exW)).map
        descByCreatedAt = some false := by
  rfl

/-- C7: a task-status-update job with a missing/falsy taskId or status, or an
unrecognized status value, and any job of an unrecognized kind, is reported by
returning a structured success=false result without throwing, and the
consumer's state is untouched: the run is `ok` (never an error, so never
retried), its success flag is false (never silently success), and the world is
returned unchanged. -/
theorem process_malformed_returns_structured_failure (job : JobIn) (w : World)
    (h : (job.name = "task-status-update" ∧
          (falsyStr job.data.taskId = true ∨ falsyStr job.data.status = true ∨
           parseStatus (job.data.status.getD "") = none)) ∨
         (job.name ≠ "task-status-update" ∧ job.name ≠ "overdue-tasks-notification")) :
    Except.map (fun p => (p.1.success, p.2)) (process job w) = Except.ok (false, w) := by
  rcases h with ⟨hname, hbad⟩ | ⟨hn1, hn2⟩
  · by_cases ht : falsyStr job.data.taskId = true
    · simp [process, hname, handleStatusUpdate, ht, Except.map]
    · by_cases hs : falsyStr job.data.status = true
      · simp [process, hname, handleStatusUpdate, ht, hs, Except.map]
      · rcases hbad with h1 | h2 | h3
        · exact absurd h1 ht
        · exact absurd h2 hs
        · simp [process, hname, handleStatusUpdate, ht, hs, h3, Except.map]
  · simp [process, beq_iff_eq, hn1, hn2, Except.map]

/-- Witness for C7 at a concrete unrecognized job kind. -/
theorem process_malformed_witness :
    Except.map (fun p => (p.1.success, p.2))
        (process { name := "mystery-job", data := {} } exW) = Except.ok (false, exW) :=
  process_malformed_returns_structured_failure { name := "mystery-job", data := {} } exW
    (Or.inr (by decide))

/-- C6: fixed-window behaviour of handleRateLimit for every caller key —
fresh/expired records are recreated with count 1 and windowExpiry now+W and
allowed; count < L increments and allows; otherwise the request is rejected
with retryAfter = ceil((windowExpiry-now)/1000) seconds; and the concrete
L=2, W=60000 scenario: requests 1 and 2 succeed, request 3 strictly within
the window is rejected with retryAfter in (0, 60], and a request after the
window elapses succeeds and resets the count to 1. -/
theorem rate_limit_fixed_window (st : List (String × RateRecord)) (ip : String)
    (L W now : Nat) :
    (alistFind ip st = none →
      handleRateLimit st ip L W now =
        (RateOutcome.allowed, alistSet ip { count := 1, expiresAt := now + W } st)) ∧
    (∀ r, alistFind ip st = some r → r.expiresAt < now →
      handleRateLimit st ip L W now =
        (RateOutcome.allowed, alistSet ip { count := 1, expiresAt := now + W } st)) ∧
    (∀ r, alistFind ip st = some r → now ≤ r.expiresAt → r.count < L →
      handleRateLimit st ip L W now =
        (RateOutcome.allowed,
         alistSet ip { count := r.count + 1, expiresAt := r.expiresAt } st)) ∧
    (∀ r, alistFind ip st = some r → now ≤ r.expiresAt → L ≤ r.count →
      handleRateLimit st ip L W now =
        (RateOutcome.rejected ((r.expiresAt - now + 999) / 1000), st)) ∧
    (∀ t1 t2 t3 t4 : Nat, alistFind ip st = none →
      t1 ≤ t3 → t2 ≤ t1 + 60000 → t3 < t1 + 60000 → t1 + 60000 < t4 →
      (handleRateLimit st ip 2 60000 t1).1 = RateOutcome.allowed ∧
      ((handleRateLimit (handleRateLimit st ip 2 60000 t1).2 ip 2 60000 t2).1 =
        RateOutcome.allowed) ∧
      ((handleRateLimit
          (handleRateLimit (handleRateLimit st ip 2 60000 t1).2 ip 2 60000 t2).2
          ip 2 60000 t3).1 =
        RateOutcome.rejected ((t1 + 60000 - t3 + 999) / 1000)) ∧
      0 < (t1 + 60000 - t3 + 999) / 1000 ∧ (t1 + 60000 - t3 + 999) / 1000 ≤ 60 ∧
      ((handleRateLimit
          (handleRateLimit
            (handleRateLimit (handleRateLimit st ip 2 60000 t1).2 ip 2 60000 t2).2
            ip 2 60000 t3).2
          ip 2 60000 t4).1 = RateOutcome.allowed) ∧
      alistFind ip
        (handleRateLimit
          (handleRateLimit
            (handleRateLimit (handleRateLimit st ip 2 60000 t1).2 ip 2 60000 t2).2
            ip 2 60000 t3).2
          ip 2 60000 t4).2 = some { count := 1, expiresAt := t4 + 60000 }) := by
  refine ⟨?_, ?_, ?_, ?_, ?_⟩
  · intro h
    simp [handleRateLimit, h]
  · intro r hr hex
    simp [handleRateLimit, hr, hex]
  · intro r hr hex hlt
    rw [handleRateLimit, hr]
    simp only
    rw [if_neg (by omega), if_neg (by omega)]
  · intro r hr hex hge
    rw [handleRateLimit, hr]
    simp only
    rw [if_neg (by omega), if_pos hge]
  · intro t1 t2 t3 t4 h0 h13 h2 h3 h4
    have e1 : handleRateLimit st ip 2 60000 t1 =
        (RateOutcome.allowed, alistSet ip { count := 1, expiresAt := t1 + 60000 } st) := by
      simp [handleRateLimit, h0]
    have l1 : alistFind ip (alistSet ip { count := 1, expiresAt := t1 + 60000 } st) =
        some { count := 1, expiresAt := t1 + 60000 } := alistFind_alistSet_self ip _ st
    have e2 : handleRateLimit (alistSet ip { count := 1, expiresAt := t1 + 60000 } st)
        ip 2 60000 t2 =
        (RateOutcome.allowed,
         alistSet ip { count := 2, expiresAt := t1 + 60000 }
           (alistSet ip { count := 1, expiresAt := t1 + 60000 } st)) := by
      rw [handleRateLimit, l1]
      simp only
      rw [if_neg (by omega), if_neg (by omega)]
    have l2 : alistFind ip
        (alistSet ip { count := 2, expiresAt := t1 + 60000 }
          (alistSet ip { count := 1, expiresAt := t1 + 60000 } st)) =
        some { count := 2, expiresAt := t1 + 60000 } := alistFind_alistSet_self ip _ _
    have e3 : handleRateLimit
        (alistSet ip { count := 2, expiresAt := t1 + 60000 }
          (alistSet ip { count := 1, expiresAt := t1 + 60000 } st)) ip 2 60000 t3 =
        (RateOutcome.rejected ((t1 + 60000 - t3 + 999) / 1000),
         alistSet ip { count := 2, expiresAt := t1 + 60000 }
           (alistSet ip { count := 1, expiresAt := t1 + 60000 } st)) := by
      rw [handleRateLimit, l2]
      simp only
      rw [if_neg (by omega), if_pos (by omega)]
    have e4 : handleRateLimit
        (alistSet ip { count := 2, expiresAt := t1 + 60000 }
          (alistSet ip { count := 1, expiresAt := t1 + 60000 } st)) ip 2 60000 t4 =
        (RateOutcome.allowed,
         alistSet ip { count := 1, expiresAt := t4 + 60000 }
           (alistSet ip { count := 2, expiresAt := t1 + 60000 }
             (alistSet ip { count := 1, expiresAt := t1 + 60000 } st))) := by
      rw [handleRateLimit, l2]
      simp only
      rw [if_pos (by omega)]
    have hlow : 0 < (t1 + 60000 - t3 + 999) / 1000 := by
      rw [Nat.lt_iff_add_one_le, Nat.le_div_iff_mul_le (by norm_num : 0 < 1000)]
      omega
    have hhigh : (t1 + 60000 - t3 + 999) / 1000 ≤ 60 := by
      calc (t1 + 60000 - t3 + 999) / 1000 ≤ 60999 / 1000 :=
            Nat.div_le_div_right (by omega)
        _ = 60 := by norm_num
    rw [e1]
    simp only
    rw [e2]
    simp only
    rw [e3]
    simp only
    rw [e4]
    exact ⟨trivial, trivial, trivial, hlow, hhigh, rfl, alistFind_alistSet_self ip _ _⟩

/-- Witness for C6: first request on an empty map is admitted and creates a
count-1 record expiring one window later. -/
theorem rate_limit_witness :
    handleRateLimit [] "ip" 2 60000 5 =
      (RateOutcome.allowed, alistSet "ip" { count := 1, expiresAt := 60005 } []) :=
  (rate_limit_fixed_window [] "ip" 2 60000 5).1 rfl

/- ## Frame lemmas for the world-threading proofs -/

theorem queueAdd_store (k tid : String) (s : Option TaskStatus) (w : World) :
    ((queueAdd k tid s w).2).store = w.store := by
  by_cases hq : w.queueFailing <;> simp [queueAdd, logEvent, hq]

theorem queueAdd_cache (k tid : String) (s : Option TaskStatus) (w : World) :
    ((queueAdd k tid s w).2).cache = w.cache := by
  by_cases hq : w.queueFailing <;> simp [queueAdd, logEvent, hq]

theorem queueAdd_events (k tid : String) (s : Option TaskStatus) (w : World) :
    ((queueAdd k tid s w).2).events = w.events ++ [Event.enqueueAttempt k tid] := by
  by_cases hq : w.queueFailing <;> simp [queueAdd, logEvent, hq]

theorem queueAdd_nextId (k tid : String) (s : Option TaskStatus) (w : World) :
    ((queueAdd k tid s w).2).nextId = w.nextId := by
  by_cases hq : w.queueFailing <;> simp [queueAdd, logEvent, hq]

theorem cacheDel_ok_parts (k : String) (w w' : World)
    (h : cacheManagerDel k w = Except.ok ((), w')) :
    w'.store = w.store ∧ w'.queue = w.queue ∧ w'.cache.failing = w.cache.failing ∧
    w'.events = w.events ++ [Event.cacheDel k] ∧ w'.nextId = w.nextId ∧
    w'.queueFailing = w.queueFailing := by
  by_cases hf : w.cache.failing
  · simp [cacheManagerDel, hf] at h
  · rw [Bool.not_eq_true] at hf
    simp [cacheManagerDel, hf] at h
    subst h
    simp [hf]

theorem invalidate_ok_parts (w w' : World)
    (h : invalidateTaskCache w = Except.ok ((), w')) :
    w'.store = w.store ∧ w'.queue = w.queue ∧ w'.cache.failing = w.cache.failing ∧
    w'.events = w.events ++ [Event.cacheDel "tasks:all", Event.cacheDel "tasks:stats"] ∧
    w'.nextId = w.nextId ∧ w'.queueFailing = w.queueFailing := by
  rw [invalidateTaskCache] at h
  split at h
  · cases h
  · rename_i u w1 hA
    split at h
    · cases h
    · rename_i u2 wB hB
      simp only [Except.ok.injEq, Prod.mk.injEq] at h
      obtain ⟨-, hw⟩ := h
      subst hw
      obtain ⟨a1, a2, a3, a4, a5, a6⟩ := cacheDel_ok_parts _ _ _ hA
      obtain ⟨b1, b2, b3, b4, b5, b6⟩ := cacheDel_ok_parts _ _ _ hB
      refine ⟨by rw [b1, a1], by rw [b2, a2], by rw [b3, a3], ?_, by rw [b5, a5],
        by rw [b6, a6]⟩
      rw [b4, a4, List.append_assoc]
      rfl

/-- C10: for every successful update, a task-status-update enqueue is
attempted iff the persisted status differs from the stored status before the
update — an update that leaves the status unchanged records no enqueue
attempt and leaves the queue untouched — whereas every successful create
attempts exactly one enqueue. -/
theorem status_change_gates_enqueue :
    (∀ (w : World) (id : String) (dto : UpdateTaskDto) (task saved : Task) (w2 : World),
      lookupTask id w.store = some task →
      update id dto w = Except.ok (saved, w2) →
      enqAttempts w2.events =
        enqAttempts w.events + (if task.status = saved.status then 0 else 1) ∧
      (task.status = saved.status → w2.queue = w.queue)) ∧
    (∀ (w : World) (dto : CreateTaskDto) (t : Task) (w2 : World),
      create dto w = Except.ok (t, w2) →
      enqAttempts w2.events = enqAttempts w.events + 1) := by
  constructor
  · intro w id dto task saved w2 hlook hrun
    simp only [update, logEvent, repoSave, hlook] at hrun
    by_cases hst : task.status = (mergeTask task dto).status
    · rw [if_neg (not_not_intro hst)] at hrun
      split at hrun
      · cases hrun
      · rename_i u w4 hI
        split at hrun
        · cases hrun
        · rename_i u2 w5 hD
          simp only [Except.ok.injEq, Prod.mk.injEq] at hrun
          obtain ⟨hsv, hw2⟩ := hrun
          subst hw2
          obtain ⟨i1, i2, i3, i4, i5, i6⟩ := invalidate_ok_parts _ _ hI
          obtain ⟨d1, d2, d3, d4, d5, d6⟩ := cacheDel_ok_parts _ _ _ hD
          constructor
          · rw [if_pos (by rw [hsv] at hst; exact hst)]
            simp [logEvent, enqAttempts, d4, i4, List.countP_append, isEnqueueAttempt,
              List.countP_cons, List.countP_nil]
          · intro hq
            simp [logEvent, d2, i2]
    · rw [if_pos hst] at hrun
      split at hrun
      · cases hrun
      · rename_i u w4 hI
        split at hrun
        · cases hrun
        · rename_i u2 w5 hD
          simp only [Except.ok.injEq, Prod.mk.injEq] at hrun
          obtain ⟨hsv, hw2⟩ := hrun
          subst hw2
          obtain ⟨i1, i2, i3, i4, i5, i6⟩ := invalidate_ok_parts _ _ hI
          obtain ⟨d1, d2, d3, d4, d5, d6⟩ := cacheDel_ok_parts _ _ _ hD
          constructor
          · rw [if_neg (by rw [hsv] at hst; exact hst)]
            simp [logEvent, enqAttempts, d4, i4, queueAdd_events, List.countP_append,
              isEnqueueAttempt, List.countP_cons, List.countP_nil]
          · intro hq
            exact absurd (hsv ▸ hq) hst
  · intro w dto t w2 hrun
    simp only [create, logEvent, repoSave] at hrun
    split at hrun
    · cases hrun
    · rename_i u w5 hI
      simp only [Except.ok.injEq, Prod.mk.injEq] at hrun
      obtain ⟨ht, hw2⟩ := hrun
      subst hw2
      obtain ⟨i1, i2, i3, i4, i5, i6⟩ := invalidate_ok_parts _ _ hI
      simp [logEvent, enqAttempts, i4, queueAdd_events, List.countP_append,
        isEnqueueAttempt, List.countP_cons, List.countP_nil]


/-- Witness for C10: a concrete successful create records exactly one
enqueue attempt. -/
theorem status_change_gates_enqueue_witness :
    enqAttempts
        ({ exW with
           store := exW.store ++
             [{ id := "task-0", title := "new", createdAt := 100 }],
           queue := [{ kind := "task-status-update", taskId := "task-0",
                       status := some TaskStatus.PENDING }],
           events := [Event.txBegin, Event.storeWrite "task-0",
                      Event.enqueueAttempt "task-status-update" "task-0",
                      Event.txCommit, Event.cacheDel "tasks:all",
                      Event.cacheDel "tasks:stats"],
           nextId := 1 } : World).events = enqAttempts exW.events + 1 := by
  refine status_change_gates_enqueue.2 exW exCrDto
    { id := "task-0", title := "new", createdAt := 100 } _ ?_
  rfl

theorem bulkLoop_parts (ids : List String) (s : TaskStatus) (w w' : World)
    (h : bulkLoop ids s w = Except.ok ((), w')) :
    w'.store = w.store ∧ w'.cache.failing = w.cache.failing := by
  induction ids generalizing w with
  | nil =>
    simp only [bulkLoop, Except.ok.injEq, Prod.mk.injEq] at h
    obtain ⟨-, hw⟩ := h
    subst hw
    exact ⟨rfl, rfl⟩
  | cons id rest ih =>
    simp only [bulkLoop] at h
    split at h
    · cases h
    · rename_i u w1 hD
      obtain ⟨d1, d2, d3, d4, d5, d6⟩ := cacheDel_ok_parts _ _ _ hD
      obtain ⟨s1, s2⟩ := ih _ h
      refine ⟨?_, ?_⟩
      · rw [s1, queueAdd_store, d1]
      · rw [s2, queueAdd_cache, d3]

/-- Characterization of a successful bulkUpdateStatus run: the reported
affected count is the number of stored rows whose id is in the list, and the
resulting store is the pointwise status overwrite. -/
theorem bulkUpdateStatus_ok_parts (ids : List String) (s : TaskStatus) (w w' : World)
    (n : Nat) (hne : ids ≠ [])
    (h : bulkUpdateStatus ids s w = Except.ok (n, w')) :
    n = w.store.countP (fun t => ids.contains t.id) ∧
    w'.store = w.store.map
      (fun t => if ids.contains t.id then { t with status := s } else t) := by
  have hie : ids.isEmpty = false := by
    cases ids with
    | nil => exact absurd rfl hne
    | cons a l => rfl
  simp only [bulkUpdateStatus, hie, Bool.false_eq_true, if_false,
    storeBulkUpdateStatus] at h
  split at h
  · cases h
  · rename_i u wB hB
    split at h
    · cases h
    · rename_i u2 wC hI
      simp only [Except.ok.injEq, Prod.mk.injEq] at h
      obtain ⟨hn, hw⟩ := h
      subst hw
      obtain ⟨l1, l2⟩ := bulkLoop_parts _ _ _ _ hB
      obtain ⟨i1, i2, i3, i4, i5, i6⟩ := invalidate_ok_parts _ _ hI
      exact ⟨hn.symm, by rw [i1, l1]⟩

/-- C9: applying bulkUpdateStatus(ids, S) twice in a row yields the same
final stored state as applying it once, and both calls report the same
affected count. -/
theorem bulkUpdateStatus_idempotent (ids : List String) (s : TaskStatus)
    (w w1 w2 : World) (n1 n2 : Nat) (hne : ids ≠ [])
    (h1 : bulkUpdateStatus ids s w = Except.ok (n1, w1))
    (h2 : bulkUpdateStatus ids s w1 = Except.ok (n2, w2)) :
    w2.store = w1.store ∧ n2 = n1 := by
  obtain ⟨hn1, hs1⟩ := bulkUpdateStatus_ok_parts ids s w w1 n1 hne h1
  obtain ⟨hn2, hs2⟩ := bulkUpdateStatus_ok_parts ids s w1 w2 n2 hne h2
  constructor
  · rw [hs2, hs1, List.map_map]
    apply List.map_congr_left
    intro t _
    by_cases hm : t.id ∈ ids
    · simp [Function.comp, hm]
    · simp [Function.comp, hm]
  · rw [hn2, hn1, hs1, List.countP_map]
    apply List.countP_congr
    intro t _
    by_cases hm : t.id ∈ ids
    · simp [Function.comp, hm]
    · simp [Function.comp, hm]

/-- Witness for C9 at a concrete store: both consecutive runs report 1
affected row and leave the store identical. -/
theorem bulkUpdateStatus_idempotent_witness :
    ({ exW with
       store := [{ exTask1 with status := TaskStatus.COMPLETED }, exTask2],
       cache := { entries := [], failing := false },
       queue := [{ kind := "task-status-update", taskId := "t1",
                   status := some TaskStatus.COMPLETED },
                 { kind := "task-status-update", taskId := "t1",
                   status := some TaskStatus.COMPLETED }],
       events := [Event.storeBulkUpd, Event.cacheDel "task:t1",
                  Event.enqueueAttempt "task-status-update" "t1",
                  Event.cacheDel "tasks:all", Event.cacheDel "tasks:stats",
                  Event.storeBulkUpd, Event.cacheDel "task:t1",
                  Event.enqueueAttempt "task-status-update" "t1",
                  Event.cacheDel "tasks:all", Event.cacheDel "tasks:stats"] } : World).store =
      ({ exW with
         store := [{ exTask1 with status := TaskStatus.COMPLETED }, exTask2],
         queue := [{ kind := "task-status-update", taskId := "t1",
                     status := some TaskStatus.COMPLETED }],
         events := [Event.storeBulkUpd, Event.cacheDel "task:t1",
                    Event.enqueueAttempt "task-status-update" "t1",
                    Event.cacheDel "tasks:all", Event.cacheDel "tasks:stats"] } : World).store ∧
    1 = 1 := by
  refine bulkUpdateStatus_idempotent ["t1"] TaskStatus.COMPLETED exW _ _ 1 1
    (by decide) ?_ ?_
  · rfl
  · rfl

/- ## Sortedness of the embedded ORDER BY -/

theorem mem_insertLe {α : Type} (le : α → α → Bool) (a x : α) (l : List α) :
    x ∈ insertLe le a l ↔ x = a ∨ x ∈ l := by
  induction l with
  | nil => simp [insertLe]
  | cons b bs ih =>
    by_cases h : le a b
    · simp [insertLe, h]
    · simp [insertLe, h, ih]
      tauto

theorem pairwise_insertLe {α : Type} (le : α → α → Bool)
    (htot : ∀ a b, le a b = true ∨ le b a = true)
    (htrans : ∀ a b c, le a b = true → le b c = true → le a c = true)
    (a : α) (l : List α) (h : l.Pairwise (fun x y => le x y = true)) :
    (insertLe le a l).Pairwise (fun x y => le x y = true) := by
  induction l with
  | nil => simp [insertLe]
  | cons b bs ih =>
    rcases List.pairwise_cons.mp h with ⟨hb, hbs⟩
    by_cases hab : le a b = true
    · rw [insertLe, if_pos hab]
      refine List.pairwise_cons.mpr ⟨?_, h⟩
      intro x hx
      rcases List.mem_cons.mp hx with rfl | hxbs
      · exact hab
      · exact htrans a b x hab (hb x hxbs)
    · rw [insertLe, if_neg hab]
      refine List.pairwise_cons.mpr ⟨?_, ih hbs⟩
      intro x hx
      rcases (mem_insertLe le a x bs).mp hx with hxa | hxbs
      · rw [hxa]
        rcases htot a b with h1 | h1
        · exact absurd h1 hab
        · exact h1
      · exact hb x hxbs

theorem pairwise_insSort {α : Type} (le : α → α → Bool)
    (htot : ∀ a b, le a b = true ∨ le b a = true)
    (htrans : ∀ a b c, le a b = true → le b c = true → le a c = true)
    (l : List α) :
    (insSort le l).Pairwise (fun x y => le x y = true) := by
  induction l with
  | nil => simp [insSort]
  | cons a as ih =>
    rw [insSort]
    exact pairwise_insertLe le htot htrans a _ ih

theorem pairwise_take_drop_insSort {α : Type} (le : α → α → Bool) (P : α → α → Prop)
    (htot : ∀ a b, le a b = true ∨ le b a = true)
    (htrans : ∀ a b c, le a b = true → le b c = true → le a c = true)
    (himp : ∀ a b, le a b = true → P a b) (l : List α) (m n : Nat) :
    (((insSort le l).drop m).take n).Pairwise P := by
  have h1 := (pairwise_insSort le htot htrans l).imp (fun h => himp _ _ h)
  exact h1.sublist ((List.take_sublist _ _).trans (List.drop_sublist _ _))

/-- C8 (amended): when the requested sort field is not allow-listed, findAll
computed from the store sorts by the fallback column createdAt, but the
direction still follows the requested sortOrder: descending unless sortOrder
is 'ASC', ascending when it is 'ASC'. -/
theorem findAll_fallback_createdAt_direction (f : TaskFilterDto) (w : World)
    (resp : PaginatedResponse) (w2 : World)
    (hmiss : alistFind (getCacheKey (dtoToObj f)) w.cache.entries = none)
    (hsort : allowedSortFields.contains (f.sortBy.getD "") = false)
    (hrun : findAll f w = Except.ok (resp, w2)) :
    (f.sortOrder ≠ some "ASC" →
      resp.data.Pairwise (fun a b => b.createdAt ≤ a.createdAt)) ∧
    (f.sortOrder = some "ASC" →
      resp.data.Pairwise (fun a b => a.createdAt ≤ b.createdAt)) := by
  by_cases hf : w.cache.failing
  · simp [findAll, cacheManagerGet, hf] at hrun
  · rw [Bool.not_eq_true] at hf
    simp only [findAll, cacheManagerGet, cacheManagerSet, hf, Bool.false_eq_true,
      if_false, hmiss, Except.ok.injEq, Prod.mk.injEq] at hrun
    obtain ⟨hresp, hw2⟩ := hrun
    subst hresp
    have horder : orderField f = "task.createdAt" := by
      rw [orderField, if_neg]
      simpa using hsort
    constructor
    · intro hdir
      have hbeq : (f.sortOrder == some "ASC") = false := by
        simp [hdir]
      have hle : findAllLe f = fun a b => decide (b.createdAt ≤ a.createdAt) := by
        funext a b
        rw [findAllLe, hbeq]
        simp only [Bool.false_eq_true, if_false, horder]
        rfl
      simp only [hle]
      exact pairwise_take_drop_insSort _ _
        (fun a b => by
          rcases Nat.le_total b.createdAt a.createdAt with h | h
          · exact Or.inl (decide_eq_true h)
          · exact Or.inr (decide_eq_true h))
        (fun a b c h1 h2 => by
          have g1 := of_decide_eq_true h1
          have g2 := of_decide_eq_true h2
          exact decide_eq_true (Nat.le_trans g2 g1))
        (fun a b h => of_decide_eq_true h) _ _ _
    · intro hdir
      have hbeq : (f.sortOrder == some "ASC") = true := by
        simp [hdir]
      have hle : findAllLe f = fun a b => decide (a.createdAt ≤ b.createdAt) := by
        funext a b
        rw [findAllLe, hbeq]
        simp only [if_true, horder]
        rfl
      simp only [hle]
      exact pairwise_take_drop_insSort _ _
        (fun a b => by
          rcases Nat.le_total a.createdAt b.createdAt with h | h
          · exact Or.inl (decide_eq_true h)
          · exact Or.inr (decide_eq_true h))
        (fun a b c h1 h2 => by
          have g1 := of_decide_eq_true h1
          have g2 := of_decide_eq_true h2
          exact decide_eq_true (Nat.le_trans g1 g2))
        (fun a b h => of_decide_eq_true h) _ _ _

/-- Witness for C8 (amended) on a concrete miss-and-compute run with an
invalid sort field and the default (DESC) direction. -/
theorem findAll_fallback_createdAt_direction_witness :
    ([exTask2, exTask1] : List Task).Pairwise (fun a b => b.createdAt ≤ a.createdAt) := by
  have h := findAll_fallback_createdAt_direction { sortBy := some "id" } exW
    { data := [exTask2, exTask1],
      meta := { total := 2, page := 1, limit := 10, totalPages := 1 } }
    { exW with
      cache := { entries := [(getCacheKey (dtoToObj { sortBy := some "id" }),
                   CacheVal.pageVal
                     { data := [exTask2, exTask1],
                       meta := { total := 2, page := 1, limit := 10, totalPages := 1 } })],
                 failing := false } }
    rfl rfl rfl
  exact h.1 (by decide)

end TaskFlow
